import Mathlib

/-!
Verification development for the ITriggr news pipeline.

This file gives a shallow embedding, in Lean 4, of the deduplication /
clustering / idempotent-generation core of the repository:

* `scripts/common.py` — `simhash` fingerprinting and its tokenizer;
* `scripts/fetch_news.py` — `save_raw`, URL-exact deduplicating ingestion;
* `scripts/cluster_and_generate_v7.py` — `safe_parse_json`,
  `make_payload_from_sources`, `already_generated` and the per-cluster
  document construction of `run_once`;
* `scripts/generate_images_qwen.py` — the transactional image lock
  `article_lock_or_skip`.

Python dictionaries are embedded as association lists `List (String × Json)`
over a small JSON value type, and the Firestore document store as an
association list keyed by document id.  External library primitives
(`hashlib.sha256`, `hashlib.md5`, `json.loads`, Firestore transactions) are
modelled by explicit Lean functions or by function parameters, as noted at
each definition.
-/

namespace ITriggr

/-- JSON values, the common currency of the pipeline: parsed backend
output, Firestore document fields and the payload dictionaries are all
JSON-shaped.  Numbers are restricted to integers, which covers every value
this pipeline stores or parses. -/
inductive Json where
  | null : Json
  | bool : Bool → Json
  | num : Int → Json
  | str : String → Json
  | arr : List Json → Json
  | obj : List (String × Json) → Json
deriving Repr

/-- Python truthiness (`bool(v)`) on embedded JSON values: `None`, `False`,
`0`, `""`, `[]` and the empty dict are falsy, everything else truthy. -/
def pyTruthy : Json → Bool
  | .null => false
  | .bool b => b
  | .num n => n != 0
  | .str s => s ≠ ""
  | .arr xs => !xs.isEmpty
  | .obj kvs => !kvs.isEmpty

/-- Python `dict.get(k)`: the value at the first matching key, if any. -/
def pyDictGet (d : List (String × Json)) (k : String) : Option Json :=
  match d with
  | [] => none
  | (k', v) :: rest => if k' = k then some v else pyDictGet rest k

/-- Python `dict.get(k, default)`. -/
def pyDictGetD (d : List (String × Json)) (k : String) (dflt : Json) : Json :=
  (pyDictGet d k).getD dflt

/-- Python `x or y` specialised to embedded values (used for
`data.get(k) or fallback`): `y` when `x` is falsy, else `x`. -/
def pyOr (x y : Json) : Json :=
  if pyTruthy x then x else y

/-- Setting one key of a Python dict (`d[k] = v`, or one field of a
Firestore `update`/merge-`set`): replace the first binding of `k`, or
append a fresh binding. -/
def dictSet (d : List (String × Json)) (k : String) (v : Json) :
    List (String × Json) :=
  match d with
  | [] => [(k, v)]
  | (k', v') :: rest => if k' = k then (k, v) :: rest else (k', v') :: dictSet rest k v

/-- Reading a key from a JSON value that the code treats as a dict
(`images_map.get("hero")`): `none` on non-objects, which the pipeline never
stores in those fields. -/
def jsonObjGet (v : Json) (k : String) : Option Json :=
  match v with
  | .obj kvs => pyDictGet kvs k
  | _ => none

/-- Truthiness of an optional value, matching Python where `dict.get`
returns `None` for a missing key and `None` is falsy. -/
def pyTruthyOpt : Option Json → Bool
  | none => false
  | some v => pyTruthy v

/-- ASCII lowering of one character, the fragment of Python `str.lower`
exercised by the pipeline's status strings (which are ASCII). -/
def charLowerAscii (c : Char) : Char :=
  if 'A' ≤ c ∧ c ≤ 'Z' then Char.ofNat (c.toNat + 32) else c

/-- Python `str.lower` on the strings this pipeline compares (ASCII status
values); also lowers uppercase Cyrillic so that the tokenizer model treats
non-Latin examples exactly as Python does. -/
def strLower (s : String) : String :=
  String.mk (s.toList.map (fun c =>
    if 0x410 ≤ c.toNat ∧ c.toNat ≤ 0x42F then Char.ofNat (c.toNat + 32)
    else charLowerAscii c))

/-- Coercion of a JSON value to the string the code calls `.lower()` on;
the pipeline only ever stores strings in `image_status`. -/
def jsonAsStr : Json → String
  | .str s => s
  | _ => ""

/-- Modelled from the spec: the opaque Firestore `SERVER_TIMESTAMP`
sentinel written into timestamp fields; its concrete value never
influences control flow. -/
def SERVER_TIMESTAMP : Json := Json.str "SERVER_TIMESTAMP"

/-! ## Concurrency Lock Manager (`scripts/generate_images_qwen.py`) -/

/-- The `images_map` a lock attempt inspects:
`data.get("images_map") or {}` from `article_lock_or_skip`. -/
def images_map_of (data : List (String × Json)) : Json :=
  pyOr (pyDictGetD data "images_map" Json.null) (Json.obj [])

/-- The lowered status string a lock attempt inspects:
`(data.get("image_status") or "").lower()` from `article_lock_or_skip`. -/
def status_of (data : List (String × Json)) : String :=
  strLower (jsonAsStr (pyOr (pyDictGetD data "image_status" Json.null) (Json.str "")))

/-- The transactional body `_lock` of `article_lock_or_skip`: read the
article snapshot; if `images_map.hero` is truthy or the status is
`pending`/`done`, return not-acquired and leave the document unchanged;
otherwise set `image_status` to `"pending"` plus a lock timestamp and
return acquired.  The Firestore transaction makes the whole step atomic,
so it is embedded as one pure state transition. -/
def lock_step (data : List (String × Json)) : Bool × List (String × Json) :=
  if pyTruthyOpt (jsonObjGet (images_map_of data) "hero")
      || status_of data = "pending" || status_of data = "done" then
    (false, data)
  else
    (true, dictSet (dictSet data "image_status" (Json.str "pending"))
      "image_lock_at" SERVER_TIMESTAMP)

/-- The wrapper `article_lock_or_skip`: run the transaction; a transaction
abort (or any other exception) is caught and reported as not-acquired with
no committed write.  `txAborted` is the oracle for whether the SDK aborted
this attempt. -/
def article_lock_or_skip (txAborted : Bool) (data : List (String × Json)) :
    Bool × List (String × Json) :=
  if txAborted then (false, data) else lock_step data

/-- A sequence of interleaved acquire attempts on one article document:
each step is one atomic `article_lock_or_skip` run (with its abort
oracle), threading the document state; returns the list of acquire
results. -/
def acquire_seq (data : List (String × Json)) : List Bool → List Bool
  | [] => []
  | ab :: rest =>
    let r := article_lock_or_skip ab data
    r.1 :: acquire_seq r.2 rest

/-! ## Fingerprinter (`scripts/common.py`) -/

/-- Character class of the tokenizer regex `[A-Za-z0-9가-힣]+` in
`simhash`: ASCII letters, ASCII digits, and Hangul syllables
(U+AC00 – U+D7A3).  Nothing else — in particular no Cyrillic and no
Japanese — is a token character. -/
def isTokenChar (c : Char) : Bool :=
  ('A' ≤ c && c ≤ 'Z') || ('a' ≤ c && c ≤ 'z') || ('0' ≤ c && c ≤ '9')
    || (decide (0xAC00 ≤ c.toNat) && decide (c.toNat ≤ 0xD7A3))

/-- Maximal runs of token characters, accumulating the current run in
reverse: the embedding of `re.findall(r"[A-Za-z0-9가-힣]+", s)`. -/
def tokenRuns : List Char → List Char → List String
  | [], acc => if acc.isEmpty then [] else [String.mk acc.reverse]
  | c :: cs, acc =>
    if isTokenChar c then tokenRuns cs (c :: acc)
    else if acc.isEmpty then tokenRuns cs []
    else String.mk acc.reverse :: tokenRuns cs []

/-- Tokenization step of `simhash`:
`re.findall(r"[A-Za-z0-9가-힣]+", (text or "").lower())`. -/
def tokens (text : String) : List String :=
  tokenRuns (strLower text).toList []

/-- Lowercase hex digit for one value below 16 (`0`–`9`, `a`–`f`),
as produced by Python's `x` format code. -/
def hexDigitChar (d : Nat) : Char :=
  if d < 10 then Char.ofNat (48 + d) else Char.ofNat (87 + d)

/-- Hex digits of `n`, least significant first (empty for zero),
fuel-indexed so that concrete values evaluate by reduction; a fuel of `n`
itself is always sufficient since the value at least halves each step. -/
def hexRevAux : Nat → Nat → List Char
  | 0, _ => []
  | fuel + 1, n =>
    if n = 0 then [] else hexDigitChar (n % 16) :: hexRevAux fuel (n / 16)

/-- Hex digits of `n`, least significant first (empty for zero). -/
def hexRev (n : Nat) : List Char :=
  hexRevAux n n

/-- Hex digits of `n`, most significant first, `"0"` for zero. -/
def hexString (n : Nat) : List Char :=
  if n = 0 then [Char.ofNat 48] else (hexRev n).reverse

/-- Python `f"{n:0{w}x}"`: lowercase hex, zero-padded on the left to
width `w`. -/
def hexPad (w n : Nat) : String :=
  String.mk (List.replicate (w - (hexString n).length) (Char.ofNat 48) ++ hexString n)

/-- Per-token bit vote of `simhash`: the source increments `v[i]` when bit
`i` of the token's MD5 value is set and decrements it otherwise.  `md5h`
abstracts `int(hashlib.md5(tok.encode()).hexdigest(), 16)`, an external
hash treated as an arbitrary token-indexed value. -/
def simhashV (md5h : String → Nat) (toks : List String) (bits : Nat) : List Int :=
  toks.foldl
    (fun v tok => v.mapIdx (fun i vi =>
      vi + if (md5h tok >>> i) % 2 = 1 then 1 else -1))
    (List.replicate bits 0)

/-- Accumulated vote for one bit position, the closed form of
`simhashV`'s entry at index `i`. -/
def simhashVote (md5h : String → Nat) (toks : List String) (i : Nat) : Int :=
  toks.foldl (fun a tok => a + if (md5h tok >>> i) % 2 = 1 then 1 else -1) 0

/-- Output integer of `simhash`: `out |= 1 << i` for every bit whose
accumulated vote is non-negative (`v[i] >= 0`). -/
def simhashOut (md5h : String → Nat) (toks : List String) (bits : Nat) : Nat :=
  (List.range bits).foldl
    (fun out i => if 0 ≤ (simhashV md5h toks bits).getD i 0 then out ||| (1 <<< i) else out)
    0

/-- The fingerprinter `simhash` of `scripts/common.py`: tokenize, return
the all-zero hex string when there are no tokens, otherwise vote per bit
over the token hashes and format the result as `bits/4` hex characters. -/
def simhash (md5h : String → Nat) (text : String) (bits : Nat := 64) : String :=
  let toks := tokens text
  if toks.isEmpty then String.mk (List.replicate (bits / 4) (Char.ofNat 48))
  else hexPad (bits / 4) (simhashOut md5h toks bits)

/-! ## Ingestion Deduplicator (`scripts/fetch_news.py`) -/

/-- One fetched news item, as assembled by `fetch_newsapi` / `fetch_rss`
before `save_raw` runs (all fields are always set by the fetchers). -/
structure RawItem where
  source : String
  source_name : String
  title : String
  url : String
  published_at : Int
  content_hint : String
  lang : String
deriving Repr, DecidableEq

/-- A stored `raw_articles` document: the fetched item plus the
`url_hash` and `simhash` fields attached by `save_raw` (the
`created_at` server timestamp carries no information for the claims). -/
structure StoredRaw where
  item : RawItem
  url_hash : String
  simhash : String
deriving Repr, DecidableEq

/-- Lookup in a document collection keyed by document id
(`doc_ref.get().exists` / the stored value). -/
def storeGet {α : Type} (db : List (String × α)) (k : String) : Option α :=
  match db with
  | [] => none
  | (k', v) :: rest => if k' = k then some v else storeGet rest k

/-- The `save_raw` loop of `scripts/fetch_news.py`: for each item, key it
by `sha256(url)`; if a document with that key exists, count it skipped
and write nothing; otherwise attach `url_hash` and the simhash of
`f"{title} {content_hint}"` and write one new document.  Returns the
store plus the `(saved, skipped)` counters.  `sha256` abstracts
`hashlib.sha256(...).hexdigest()` and `md5h` the token hash of
`simhash`, both external library hashes. -/
def save_raw (sha256 : String → String) (md5h : String → Nat)
    (db : List (String × StoredRaw)) (items : List RawItem) :
    List (String × StoredRaw) × Nat × Nat :=
  items.foldl
    (fun acc it =>
      let url_hash := sha256 it.url
      if (storeGet acc.1 url_hash).isSome then (acc.1, acc.2.1, acc.2.2 + 1)
      else ((url_hash, ⟨it, url_hash, simhash md5h (it.title ++ " " ++ it.content_hint)⟩) :: acc.1,
        acc.2.1 + 1, acc.2.2))
    (db, 0, 0)

/-! ## Output Normalizer (`scripts/cluster_and_generate_v7.py`)

`json.loads` is a Python standard-library primitive; it is modelled here
by a recursive-descent parser over the JSON grammar the pipeline
exercises (objects, arrays, strings with simple escapes, integer
numerals, `true`/`false`/`null`), rejecting trailing data exactly as
`json.loads` does. -/

/-- Double quote, written by code point to keep the character apart from
string syntax. -/
def quoteChar : Char := Char.ofNat 34

/-- Backslash character. -/
def backslashChar : Char := Char.ofNat 92

/-- Backtick character, the fence delimiter of the stripping regex. -/
def backquote : Char := Char.ofNat 96

/-- Opening curly brace. -/
def lbrace : Char := Char.ofNat 123

/-- Closing curly brace. -/
def rbrace : Char := Char.ofNat 125

/-- JSON inter-token whitespace accepted by `json.loads`. -/
def skipJsonWs : List Char → List Char
  | [] => []
  | c :: cs =>
    if c == ' ' || c == Char.ofNat 9 || c == Char.ofNat 10 || c == Char.ofNat 13 then
      skipJsonWs cs
    else c :: cs

/-- JSON string escapes (`\"`, `\\`, `\/`, `\b`, `\f`, `\n`, `\r`,
`\t`). -/
def escChar (c : Char) : Option Char :=
  if c == quoteChar then some quoteChar
  else if c == backslashChar then some backslashChar
  else if c == '/' then some '/'
  else if c == 'b' then some (Char.ofNat 8)
  else if c == 'f' then some (Char.ofNat 12)
  else if c == 'n' then some (Char.ofNat 10)
  else if c == 'r' then some (Char.ofNat 13)
  else if c == 't' then some (Char.ofNat 9)
  else none

/-- Body of a JSON string literal after its opening quote, with the
accumulated characters in reverse; returns the string and the rest of
the input past the closing quote. -/
def parseStrBody : List Char → List Char → Option (String × List Char)
  | _acc, [] => none
  | acc, c :: cs =>
    if c == quoteChar then some (String.mk acc.reverse, cs)
    else if c == backslashChar then
      match cs with
      | [] => none
      | e :: cs2 =>
        match escChar e with
        | some ec => parseStrBody (ec :: acc) cs2
        | none => none
    else parseStrBody (c :: acc) cs

/-- Decimal digit value of a character, if it is a digit. -/
def digitVal (c : Char) : Option Nat :=
  if '0' ≤ c && c ≤ '9' then some (c.toNat - 48) else none

/-- Longest digit run from the front of the input, accumulated as a
number. -/
def parseDigits : List Char → Nat → Nat × List Char
  | [], acc => (acc, [])
  | c :: cs, acc =>
    match digitVal c with
    | some d => parseDigits cs (acc * 10 + d)
    | none => (acc, c :: cs)

/-- State of the recursive-descent JSON parser: parsing one value, the
inside of an object (just past the brace), the members of a non-empty
object, the inside of an array, or the elements of a non-empty array. -/
inductive PState where
  | val : PState
  | objBody : PState
  | members : List (String × Json) → PState
  | arrBody : PState
  | elems : List Json → PState

/-- One fuel-indexed step function covering the whole JSON grammar (a
single structural recursion on the fuel, so concrete inputs evaluate by
reduction; `json_loads` supplies ample fuel). -/
def parseStep : Nat → PState → List Char → Option (Json × List Char)
  | 0, _, _ => none
  | fuel + 1, PState.val, cs =>
    (match skipJsonWs cs with
    | [] => none
    | c :: rest =>
      if c == quoteChar then
        match parseStrBody [] rest with
        | some (s, rest2) => some (Json.str s, rest2)
        | none => none
      else if c == lbrace then parseStep fuel PState.objBody (skipJsonWs rest)
      else if c == '[' then parseStep fuel PState.arrBody (skipJsonWs rest)
      else if c == 't' then
        match rest with
        | 'r' :: 'u' :: 'e' :: rest2 => some (Json.bool true, rest2)
        | _ => none
      else if c == 'f' then
        match rest with
        | 'a' :: 'l' :: 's' :: 'e' :: rest2 => some (Json.bool false, rest2)
        | _ => none
      else if c == 'n' then
        match rest with
        | 'u' :: 'l' :: 'l' :: rest2 => some (Json.null, rest2)
        | _ => none
      else if c == '-' then
        match rest with
        | d :: _ =>
          if (digitVal d).isSome then
            let p := parseDigits rest 0
            some (Json.num (-(p.1 : Int)), p.2)
          else none
        | [] => none
      else if (digitVal c).isSome then
        let p := parseDigits (c :: rest) 0
        some (Json.num (p.1 : Int), p.2)
      else none)
  | fuel + 1, PState.objBody, cs =>
    (match cs with
    | [] => none
    | c :: _ =>
      if c == rbrace then some (Json.obj [], cs.tail)
      else parseStep fuel (PState.members []) cs)
  | fuel + 1, PState.members acc, cs =>
    (match skipJsonWs cs with
    | [] => none
    | q :: rest =>
      if q == quoteChar then
        match parseStrBody [] rest with
        | some (k, rest2) =>
          match skipJsonWs rest2 with
          | [] => none
          | c3 :: rest3 =>
            if c3 == ':' then
              match parseStep fuel PState.val rest3 with
              | some (v, rest4) =>
                match skipJsonWs rest4 with
                | [] => none
                | c5 :: rest5 =>
                  if c5 == ',' then parseStep fuel (PState.members (acc ++ [(k, v)])) rest5
                  else if c5 == rbrace then some (Json.obj (acc ++ [(k, v)]), rest5)
                  else none
              | none => none
            else none
        | none => none
      else none)
  | fuel + 1, PState.arrBody, cs =>
    (match cs with
    | [] => none
    | c :: _ =>
      if c == ']' then some (Json.arr [], cs.tail)
      else parseStep fuel (PState.elems []) cs)
  | fuel + 1, PState.elems acc, cs =>
    (match parseStep fuel PState.val cs with
    | some (v, rest) =>
      match skipJsonWs rest with
      | [] => none
      | c2 :: rest2 =>
        if c2 == ',' then parseStep fuel (PState.elems (acc ++ [v])) rest2
        else if c2 == ']' then some (Json.arr (acc ++ [v]), rest2)
        else none
    | none => none)

/-- Model of Python `json.loads`: parse one JSON value and reject any
non-whitespace trailing data (the "Extra data" error). -/
def json_loads (s : String) : Option Json :=
  let cs := s.toList
  match parseStep (cs.length + 2) PState.val cs with
  | some (v, rest) => if (skipJsonWs rest).isEmpty then some v else none
  | none => none

/-- Python whitespace for `str.strip` and the regex class `\s` (the ASCII
fragment, which is all the pipeline's inputs use). -/
def pyWs (c : Char) : Bool :=
  c == ' ' || c == Char.ofNat 9 || c == Char.ofNat 10 || c == Char.ofNat 13
    || c == Char.ofNat 11 || c == Char.ofNat 12

/-- Python `str.strip()`: drop leading and trailing whitespace. -/
def pyStrip (s : String) : String :=
  String.mk (((s.toList.dropWhile pyWs).reverse.dropWhile pyWs).reverse)

/-- Length of the whitespace run at the front of the input (`\s*`). -/
def wsRunLen (cs : List Char) : Nat :=
  (cs.takeWhile pyWs).length

/-- First branch of the fence-stripping regex, at position `i` of the
original input: `^```(?:json)?\s*` with `re.M` (so `^` matches at the
start or after a newline) and `re.I` (so the tag matches
case-insensitively).  Returns the end position of the match. -/
def matchFenceA (s : List Char) (i : Nat) : Option Nat :=
  if i == 0 || s.getD (i - 1) ' ' == Char.ofNat 10 then
    let rest := s.drop i
    if rest.take 3 == [backquote, backquote, backquote] then
      let r1 := rest.drop 3
      let r2 := if (r1.take 4).map charLowerAscii == ['j', 's', 'o', 'n'] then r1.drop 4 else r1
      some (s.length - (r2.drop (wsRunLen r2)).length)
    else none
  else none

/-- Second branch of the fence-stripping regex, at position `i`:
`\s*```$` with `re.M` (so `$` matches at the end or before a newline).
Whitespace is never a backtick, so the greedy `\s*` is forced to the
whole whitespace run. -/
def matchFenceB (s : List Char) (i : Nat) : Option Nat :=
  let rest := s.drop i
  let k := wsRunLen rest
  if (rest.drop k).take 3 == [backquote, backquote, backquote] then
    let e := i + k + 3
    if e == s.length || s.getD e ' ' == Char.ofNat 10 then some e else none
  else none

/-- Left-to-right scan of `re.sub(pattern, "", s)`: at each position try
the two branches in order; on a match, emit nothing and jump past it;
otherwise copy one character (fuel-indexed; every step advances). -/
def fenceScan (s : List Char) : Nat → Nat → List Char
  | 0, _ => []
  | fuel + 1, i =>
    if i < s.length then
      match (matchFenceA s i).orElse (fun _ => matchFenceB s i) with
      | some j =>
        if i < j then fenceScan s fuel j
        else s.getD i ' ' :: fenceScan s fuel (i + 1)
      | none => s.getD i ' ' :: fenceScan s fuel (i + 1)
    else []

/-- Stage-2 preprocessing of `safe_parse_json`:
`re.sub(r"^```(?:json)?\s*|\s*```$", "", content.strip(), flags=re.I | re.M)`. -/
def strip_fences (content : String) : String :=
  let s := (pyStrip content).toList
  String.mk (fenceScan s (s.length + 1) 0)

/-- Stage-3 span extraction of `safe_parse_json`:
`re.search(r"\{.*\}", content, flags=re.S)`, i.e. the span from the
leftmost brace that has some closing brace after it, greedily out to the
last closing brace of the whole input. -/
def brace_span (content : String) : Option String :=
  let s := content.toList
  match s.reverse.findIdx? (fun c => c == rbrace) with
  | none => none
  | some r =>
    let j := s.length - 1 - r
    match (s.take j).findIdx? (fun c => c == lbrace) with
    | none => none
    | some i => some (String.mk ((s.drop i).take (j + 1 - i)))

/-- The `safe_parse_json` extractor of `scripts/cluster_and_generate_v7.py`:
try the text verbatim, then the fence-stripped text, then the brace span;
return the first success, raise (`Except.error`) when the brace span is
missing or fails to parse. -/
def safe_parse_json (content : String) : Except Unit Json :=
  match json_loads content with
  | some v => Except.ok v
  | none =>
    match json_loads (strip_fences content) with
    | some v => Except.ok v
    | none =>
      match brace_span content with
      | some sp =>
        match json_loads sp with
        | some v => Except.ok v
        | none => Except.error ()
      | none => Except.error ()

/-- Stage 1 of the normalizer: parse the text verbatim. -/
def normalize_stage1 (content : String) : Option Json :=
  json_loads content

/-- Stage 2 of the normalizer: strip code fences and parse. -/
def normalize_stage2 (content : String) : Option Json :=
  json_loads (strip_fences content)

/-- Stage 3 of the normalizer: parse the first-brace-to-last-brace
span. -/
def normalize_stage3 (content : String) : Option Json :=
  (brace_span content).bind json_loads

/-! ## Fallback Synthesizer and Generation Gate
(`scripts/cluster_and_generate_v7.py`) -/

/-- The template payload `make_payload_from_sources`: a deterministic,
backend-free record built from the cluster's items alone.  Items are the
`(doc_id, fields)` pairs that `load_recent_raw_groups` puts in a group;
`items[0][1]` is the field dict of the first item. -/
def make_payload_from_sources (items : List (String × List (String × Json))) :
    List (String × Json) :=
  let n := items.length
  let title := "[Auto] " ++ toString n ++ " source" ++ (if n > 1 then "s" else "")
    ++ " on same event"
  let summary :=
    if n > 1 then
      "Multiple outlets reported a similar event. (Template summary: LLM disabled)"
    else
      "A single source reported this event. (Template summary: LLM disabled)"
  let bullets := [Json.str "Key point 1", Json.str "Key point 2", Json.str "Key point 3"]
  let first := match items with
    | [] => []
    | x :: _ => x.2
  let facts := [Json.obj [("text", pyDictGetD first "title" (Json.str "")),
    ("evidence_url", pyDictGetD first "url" (Json.str ""))]]
  let talks := Json.obj [
    ("general", Json.str "이번 이슈는 일상과도 맞닿아 있어요. 단정하기보다는 주변 의견을 들어보며 상황을 천천히 정리해 보세요. 과열된 주장엔 거리를 두고, 도움이 되는 작은 실천부터 시작하면 좋아요."),
    ("entrepreneur", Json.str "시장 반응이 출렁일 수 있으니 과감한 메시지보다 고객 인터뷰와 작은 실험으로 검증해요. 리스크 노출은 최소화하고, 대안 채널이나 파일럿으로 학습 속도를 높여보죠."),
    ("politician", Json.str "사실관계를 우선 확인하고 이해관계자 의견을 폭넓게 수렴해 보세요. 정쟁으로 번질 여지가 있다면 단계적 권고안부터 제시하는 편이 안전합니다."),
    ("investor", Json.str "헤드라인보다 펀더멘털과 현금흐름을 먼저 살펴봐요. 변동성은 분산과 포지션 크기 조절로 관리하고, 정보가 더 쌓일 때까지는 관망도 선택지예요.")]
  [("title", Json.str title),
   ("summary", Json.str summary),
   ("bullets", Json.arr bullets),
   ("facts", Json.arr facts),
   ("talks", talks)]

/-- The gate `already_generated`: query `generated_articles_v3` for a
document with the given `cluster_key` and report whether one exists.  The
query's outcome is the `snapResult` argument: a store error (`Except.error`)
is caught inside the function, logged, and reported as `false`. -/
def already_generated (snapResult : Except Unit (List Unit)) : Bool :=
  match snapResult with
  | Except.error _ => false
  | Except.ok snap => decide (snap.length > 0)

/-- The Firestore document `run_once` assembles before
`db.collection("generated_articles_v3").add(doc)`: every payload field is
read with `payload.get(key, default)` — in particular `talks` defaults to
the four-empty-string dict only when the `talks` key is absent from the
payload. -/
def build_doc (cluster_key : String) (payload : List (String × Json))
    (src_lines : List String) (raw_refs : List String)
    (ts_min ts_max : Int) (model_used : String)
    (token_usage : Json) (latency_ms : Int) : List (String × Json) :=
  [("cluster_key", Json.str cluster_key),
   ("title", pyDictGetD payload "title" (Json.str "")),
   ("summary", pyDictGetD payload "summary" (Json.str "")),
   ("bullets", pyDictGetD payload "bullets" (Json.arr [])),
   ("facts", pyDictGetD payload "facts" (Json.arr [])),
   ("talks", pyDictGetD payload "talks" (Json.obj [("general", Json.str ""),
     ("entrepreneur", Json.str ""), ("politician", Json.str ""),
     ("investor", Json.str "")])),
   ("evidence_urls", Json.arr ((src_lines.filter (fun l => l.toList.contains '|')).map
     (fun l => Json.str (pyStrip ((l.splitOn "|").getD 1 ""))))),
   ("raw_refs", Json.arr (raw_refs.map Json.str)),
   ("published_window", Json.obj [("start", Json.num ts_min), ("end", Json.num ts_max)]),
   ("model", Json.str model_used),
   ("token_usage", token_usage),
   ("latency_ms", Json.num latency_ms),
   ("schema_version", Json.str "talks_v1"),
   ("created_at", SERVER_TIMESTAMP)]

/-- The per-cluster control flow of `run_once`, one entry per cluster:
skip clusters with fewer than one item, skip clusters `already_generated`
reports as generated, and otherwise write one document (the template
fallback guarantees a payload exists whatever the backend does).  Returns
the `created` counter. -/
def run_once_model (clusters : List (Nat × Except Unit (List Unit))) : Nat :=
  clusters.foldl
    (fun created c =>
      if c.1 < 1 then created
      else if already_generated c.2 then created
      else created + 1)
    0

/-! ## Theorems: Concurrency Lock Manager -/

theorem pyDictGet_dictSet_self (d : List (String × Json)) (k : String) (v : Json) :
    pyDictGet (dictSet d k v) k = some v := by
  induction d with
  | nil => simp [dictSet, pyDictGet]
  | cons hd tl ih =>
    obtain ⟨k', v'⟩ := hd
    by_cases h : k' = k
    · simp [dictSet, pyDictGet, h]
    · simp [dictSet, pyDictGet, h, ih]

theorem pyDictGet_dictSet_ne (d : List (String × Json)) (k k' : String) (v : Json)
    (h : k ≠ k') : pyDictGet (dictSet d k v) k' = pyDictGet d k' := by
  induction d with
  | nil => simp [dictSet, pyDictGet, h]
  | cons hd tl ih =>
    obtain ⟨k₀, v₀⟩ := hd
    by_cases h0 : k₀ = k
    · subst h0
      simp [dictSet, pyDictGet, h]
    · simp [dictSet, pyDictGet, h0, ih]

/-- After a successful lock transaction the stored status reads back as
`"pending"`. -/
theorem status_of_after_lock (data : List (String × Json)) :
    status_of (dictSet (dictSet data "image_status" (Json.str "pending"))
      "image_lock_at" SERVER_TIMESTAMP) = "pending" := by
  unfold status_of pyDictGetD
  rw [pyDictGet_dictSet_ne _ _ _ _ (by decide), pyDictGet_dictSet_self]
  rfl

/-- A document whose status reads `"pending"` rejects every further lock
attempt and is left unchanged. -/
theorem lock_step_of_pending (data : List (String × Json))
    (h : status_of data = "pending") : lock_step data = (false, data) := by
  unfold lock_step
  rw [h]
  simp

/-- Every acquire attempt on a pending-status document fails, so a whole
sequence of them acquires zero times. -/
theorem acquire_seq_count_zero (aborts : List Bool) (data : List (String × Json))
    (h : status_of data = "pending") : (acquire_seq data aborts).count true = 0 := by
  induction aborts generalizing data with
  | nil => rfl
  | cons ab rest ih =>
    have hstep : article_lock_or_skip ab data = (false, data) := by
      unfold article_lock_or_skip
      rw [lock_step_of_pending data h]
      simp
    simp only [acquire_seq, hstep]
    simpa using ih data h

/-- C1: for every GeneratedArticle document and every sequence of
interleaved `article_lock_or_skip` steps on that document (with no
intervening reset of `image_status`), at most one step returns acquired:
an attempt returns not-acquired (and leaves the document unchanged)
whenever `images_map.hero` is truthy or the status is `pending`/`done`; a
successful attempt sets `image_status` to `pending` within the same
atomic transaction; and consequently the count of acquired results in any
acquire-only interleaving is at most one. -/
theorem C1_lock_exclusivity :
    (∀ (ab : Bool) (data : List (String × Json)),
      pyTruthyOpt (jsonObjGet (images_map_of data) "hero") = true
        ∨ status_of data = "pending" ∨ status_of data = "done" →
      article_lock_or_skip ab data = (false, data))
    ∧ (∀ (data d' : List (String × Json)) (acq : Bool),
        lock_step data = (acq, d') → acq = true → status_of d' = "pending")
    ∧ (∀ (aborts : List Bool) (data : List (String × Json)),
        (acquire_seq data aborts).count true ≤ 1) := by
  refine ⟨?_, ?_, ?_⟩
  · intro ab data h
    have hguard : (pyTruthyOpt (jsonObjGet (images_map_of data) "hero")
        || decide (status_of data = "pending") || decide (status_of data = "done")) = true := by
      rcases h with h | h | h <;> simp [h]
    unfold article_lock_or_skip lock_step
    rw [hguard]
    simp
  · intro data d' acq hstep hacq
    subst hacq
    unfold lock_step at hstep
    by_cases hguard : (pyTruthyOpt (jsonObjGet (images_map_of data) "hero")
        || decide (status_of data = "pending") || decide (status_of data = "done")) = true
    · rw [hguard] at hstep
      simp at hstep
    · rw [Bool.not_eq_true] at hguard
      rw [hguard] at hstep
      simp at hstep
      rw [← hstep]
      exact status_of_after_lock data
  · intro aborts data
    induction aborts generalizing data with
    | nil => simp [acquire_seq]
    | cons ab rest ih =>
      by_cases hab : ab = true
      · subst hab
        have : article_lock_or_skip true data = (false, data) := rfl
        simp only [acquire_seq, this]
        simpa using ih data
      · rw [Bool.not_eq_true] at hab
        subst hab
        by_cases hguard : (pyTruthyOpt (jsonObjGet (images_map_of data) "hero")
            || decide (status_of data = "pending") || decide (status_of data = "done")) = true
        · have hstep : article_lock_or_skip false data = (false, data) := by
            unfold article_lock_or_skip lock_step
            rw [hguard]
            simp
          simp only [acquire_seq, hstep]
          simpa using ih data
        · rw [Bool.not_eq_true] at hguard
          have hstep : article_lock_or_skip false data =
              (true, dictSet (dictSet data "image_status" (Json.str "pending"))
                "image_lock_at" SERVER_TIMESTAMP) := by
            unfold article_lock_or_skip lock_step
            rw [hguard]
            simp
          simp only [acquire_seq, hstep]
          have hzero := acquire_seq_count_zero rest
            (dictSet (dictSet data "image_status" (Json.str "pending"))
              "image_lock_at" SERVER_TIMESTAMP) (status_of_after_lock data)
          simp [List.count_cons, hzero]

/-- Witness for C1: on a document already in `done` status the attempt is
rejected unchanged, and the document produced by a successful lock on an
empty document reads back status `pending`. -/
theorem C1_lock_exclusivity_witness :
    article_lock_or_skip false [("image_status", Json.str "done")]
        = (false, [("image_status", Json.str "done")])
    ∧ status_of [("image_status", Json.str "pending"),
        ("image_lock_at", SERVER_TIMESTAMP)] = "pending" :=
  ⟨C1_lock_exclusivity.1 false [("image_status", Json.str "done")]
      (Or.inr (Or.inr rfl)),
   C1_lock_exclusivity.2.1 []
      [("image_status", Json.str "pending"), ("image_lock_at", SERVER_TIMESTAMP)]
      true rfl rfl⟩

/-- Counterexample to C2: a document whose `image_status` is `failed` and
whose `images_map` has no hero is (re-)acquired — `article_lock_or_skip`
returns acquired, not not-acquired as the claim states. -/
theorem C2_counterexample :
    (article_lock_or_skip false [("image_status", Json.str "failed")]).1 = true := rfl

/-- C2 as amended: on a record whose `image_status` reads `failed` and
whose `images_map.hero` is absent, `article_lock_or_skip` returns
acquired and transitions the status to `pending` — `failed` is not
terminal for the lock; only a present hero image or a `pending`/`done`
status blocks re-acquisition, so the pipeline will retry a failed record
on a later run. -/
theorem C2_failed_not_terminal (data : List (String × Json))
    (hstatus : status_of data = "failed")
    (hhero : pyTruthyOpt (jsonObjGet (images_map_of data) "hero") = false) :
    lock_step data = (true, dictSet (dictSet data "image_status" (Json.str "pending"))
        "image_lock_at" SERVER_TIMESTAMP)
    ∧ status_of (lock_step data).2 = "pending" := by
  have hguard : (pyTruthyOpt (jsonObjGet (images_map_of data) "hero")
      || decide (status_of data = "pending") || decide (status_of data = "done")) = false := by
    rw [hstatus, hhero]
    simp
  have hstep : lock_step data = (true, dictSet (dictSet data "image_status"
      (Json.str "pending")) "image_lock_at" SERVER_TIMESTAMP) := by
    unfold lock_step
    rw [hguard]
    simp
  exact ⟨hstep, by rw [hstep]; exact status_of_after_lock data⟩

/-- Witness for C2's amended statement at the concrete failed document. -/
theorem C2_failed_not_terminal_witness :
    lock_step [("image_status", Json.str "failed")]
        = (true, [("image_status", Json.str "pending"), ("image_lock_at", SERVER_TIMESTAMP)])
    ∧ status_of (lock_step [("image_status", Json.str "failed")]).2 = "pending" :=
  C2_failed_not_terminal [("image_status", Json.str "failed")] rfl rfl

/-! ## Theorems: Fallback Synthesizer -/

/-- C3: for every list of raw items (including the empty list), the
fallback payload of `make_payload_from_sources` is total and structurally
valid — `bullets` has length exactly three, `talks` carries all four
reader keys with string values, `facts` is non-empty, and when the input
is non-empty the first fact cites the first item's `title` and `url`. -/
theorem C3_fallback_totality :
    ∀ (items : List (String × List (String × Json))),
      (∃ bs, pyDictGet (make_payload_from_sources items) "bullets" = some (Json.arr bs)
        ∧ bs.length = 3)
      ∧ (∀ k, k ∈ ["general", "entrepreneur", "politician", "investor"] →
          ∃ s, jsonObjGet (pyDictGetD (make_payload_from_sources items) "talks" Json.null) k
            = some (Json.str s))
      ∧ (∃ fs, pyDictGet (make_payload_from_sources items) "facts" = some (Json.arr fs)
          ∧ fs ≠ [])
      ∧ (∀ i fields rest, items = (i, fields) :: rest →
          pyDictGet (make_payload_from_sources items) "facts" =
            some (Json.arr [Json.obj [("text", pyDictGetD fields "title" (Json.str "")),
              ("evidence_url", pyDictGetD fields "url" (Json.str ""))]])) := by
  intro items
  refine ⟨⟨_, rfl, rfl⟩, ?_, ⟨_, rfl, by simp⟩, ?_⟩
  · intro k hk
    fin_cases hk
    · exact ⟨_, rfl⟩
    · exact ⟨_, rfl⟩
    · exact ⟨_, rfl⟩
    · exact ⟨_, rfl⟩
  · intro i fields rest hitems
    subst hitems
    rfl

/-- Witness for C3 at a one-item cluster: the first fact cites that
item's title and url. -/
theorem C3_fallback_totality_witness :
    pyDictGet (make_payload_from_sources
        [("d1", [("title", Json.str "T1"), ("url", Json.str "http://e/a")])]) "facts"
      = some (Json.arr [Json.obj [("text", Json.str "T1"),
          ("evidence_url", Json.str "http://e/a")]]) :=
  (C3_fallback_totality [("d1", [("title", Json.str "T1"), ("url", Json.str "http://e/a")])]).2.2.2
    "d1" [("title", Json.str "T1"), ("url", Json.str "http://e/a")] [] rfl

/-! ## Theorems: Ingestion Deduplicator -/

/-- Number of documents stored under one key. -/
def countKey {α : Type} (db : List (String × α)) (k : String) : Nat :=
  (db.filter (fun p => p.1 == k)).length

theorem countKey_zero_of_storeGet_none {α : Type} (db : List (String × α)) (k : String)
    (h : storeGet db k = none) : countKey db k = 0 := by
  induction db with
  | nil => rfl
  | cons hd tl ih =>
    obtain ⟨k', v⟩ := hd
    by_cases hk : k' = k
    · simp [storeGet, hk] at h
    · simp only [storeGet, if_neg hk] at h
      have hb : (k' == k) = false := by simp [hk]
      have htl := ih h
      unfold countKey at htl ⊢
      rw [List.filter_cons]
      simp [hb, htl]

/-- C5: ingesting the same URL twice through `save_raw` yields exactly
one stored `raw_articles` document.  The second ingestion finds the
`sha256(url)` key already present, performs zero writes (the store is
unchanged, so the stored record is too), and is counted as skipped; when
the URL was fresh, the single stored document is keyed by the hash and
carries the `url_hash` and `simhash` fields. -/
theorem C5_ingest_idempotent (sha256 : String → String) (md5h : String → Nat)
    (db : List (String × StoredRaw)) (it it2 : RawItem) (hurl : it2.url = it.url) :
    (save_raw sha256 md5h (save_raw sha256 md5h db [it]).1 [it2]).1
        = (save_raw sha256 md5h db [it]).1
    ∧ (save_raw sha256 md5h (save_raw sha256 md5h db [it]).1 [it2]).2.1 = 0
    ∧ (save_raw sha256 md5h (save_raw sha256 md5h db [it]).1 [it2]).2.2 = 1
    ∧ (storeGet (save_raw sha256 md5h db [it]).1 (sha256 it.url)).isSome = true
    ∧ (storeGet db (sha256 it.url) = none →
        countKey (save_raw sha256 md5h db [it]).1 (sha256 it.url) = 1
        ∧ storeGet (save_raw sha256 md5h db [it]).1 (sha256 it.url) =
            some ⟨it, sha256 it.url, simhash md5h (it.title ++ " " ++ it.content_hint)⟩) := by
  by_cases h : storeGet db (sha256 it.url) = none
  · have h1 : (save_raw sha256 md5h db [it]).1 =
        (sha256 it.url, ⟨it, sha256 it.url,
          simhash md5h (it.title ++ " " ++ it.content_hint)⟩) :: db := by
      simp [save_raw, List.foldl, h]
    have hget : storeGet ((sha256 it.url, (⟨it, sha256 it.url,
        simhash md5h (it.title ++ " " ++ it.content_hint)⟩ : StoredRaw)) :: db)
        (sha256 it.url) = some ⟨it, sha256 it.url,
          simhash md5h (it.title ++ " " ++ it.content_hint)⟩ := by
      simp [storeGet]
    have hsnd1 : (save_raw sha256 md5h ((sha256 it.url, (⟨it, sha256 it.url,
        simhash md5h (it.title ++ " " ++ it.content_hint)⟩ : StoredRaw)) :: db) [it2]).1
        = (sha256 it.url, (⟨it, sha256 it.url,
          simhash md5h (it.title ++ " " ++ it.content_hint)⟩ : StoredRaw)) :: db := by
      simp [save_raw, List.foldl, hurl, hget]
    have hsnd2 : (save_raw sha256 md5h ((sha256 it.url, (⟨it, sha256 it.url,
        simhash md5h (it.title ++ " " ++ it.content_hint)⟩ : StoredRaw)) :: db) [it2]).2.1
        = 0 := by
      simp [save_raw, List.foldl, hurl, hget]
    have hsnd3 : (save_raw sha256 md5h ((sha256 it.url, (⟨it, sha256 it.url,
        simhash md5h (it.title ++ " " ++ it.content_hint)⟩ : StoredRaw)) :: db) [it2]).2.2
        = 1 := by
      simp [save_raw, List.foldl, hurl, hget]
    refine ⟨?_, ?_, ?_, ?_, ?_⟩
    · rw [h1, hsnd1]
    · rw [h1, hsnd2]
    · rw [h1, hsnd3]
    · rw [h1, hget]
      rfl
    · intro _
      constructor
      · have h0 := countKey_zero_of_storeGet_none db (sha256 it.url) h
        unfold countKey at h0 ⊢
        rw [h1, List.filter_cons]
        simp [h0]
      · rw [h1, hget]
  · have hne : storeGet db (sha256 it.url) ≠ none := h
    rw [Option.ne_none_iff_isSome] at hne
    have h1 : (save_raw sha256 md5h db [it]).1 = db := by
      simp [save_raw, List.foldl, hne]
    have hsnd1 : (save_raw sha256 md5h db [it2]).1 = db := by
      simp [save_raw, List.foldl, hurl, hne]
    have hsnd2 : (save_raw sha256 md5h db [it2]).2.1 = 0 := by
      simp [save_raw, List.foldl, hurl, hne]
    have hsnd3 : (save_raw sha256 md5h db [it2]).2.2 = 1 := by
      simp [save_raw, List.foldl, hurl, hne]
    refine ⟨?_, ?_, ?_, ?_, ?_⟩
    · rw [h1, hsnd1]
    · rw [h1, hsnd2]
    · rw [h1, hsnd3]
    · rw [h1]
      exact hne
    · intro hnone
      exact absurd hnone h

/-- Witness for C5 at a concrete item over the empty store, with the
identity function standing in for the URL hash. -/
theorem C5_ingest_idempotent_witness :
    (save_raw (fun s => s) (fun _ => 0)
        (save_raw (fun s => s) (fun _ => 0) []
          [⟨"newsapi", "n", "T", "http://e/a", 0, "h", "en"⟩]).1
        [⟨"newsapi", "n", "T", "http://e/a", 0, "h", "en"⟩]).2.2 = 1
    ∧ countKey (save_raw (fun s => s) (fun _ => 0) []
        [⟨"newsapi", "n", "T", "http://e/a", 0, "h", "en"⟩]).1 "http://e/a" = 1 := by
  have h := C5_ingest_idempotent (fun s => s) (fun _ => 0) []
    ⟨"newsapi", "n", "T", "http://e/a", 0, "h", "en"⟩
    ⟨"newsapi", "n", "T", "http://e/a", 0, "h", "en"⟩ rfl
  exact ⟨h.2.2.1, (h.2.2.2.2 rfl).1⟩

/-! ## Theorems: tolerant-reader handling of `talks` in `run_once` -/

/-- Counterexample to C6: a parsed payload whose `talks` object is
present but carries only the `general` key is stored as-is — the stored
document's `talks` has no `investor` key, so the missing reader keys are
not filled with empty strings. -/
theorem C6_counterexample :
    pyDictGet (build_doc "ck" [("talks", Json.obj [("general", Json.str "g")])]
        [] [] 0 0 "gpt-4o-mini" (Json.obj []) 0) "talks"
      = some (Json.obj [("general", Json.str "g")])
    ∧ jsonObjGet (pyDictGetD (build_doc "ck"
        [("talks", Json.obj [("general", Json.str "g")])]
        [] [] 0 0 "gpt-4o-mini" (Json.obj []) 0) "talks" Json.null) "investor" = none :=
  ⟨rfl, rfl⟩

/-- C6 as amended: the four-empty-string default for `talks` applies only
when the payload has no `talks` key at all; a present `talks` value is
stored unchanged, without filling missing reader keys. -/
theorem C6_talks_default (cluster_key : String) (payload : List (String × Json))
    (src_lines raw_refs : List String) (ts_min ts_max : Int) (model_used : String)
    (token_usage : Json) (latency_ms : Int) :
    (pyDictGet payload "talks" = none →
      pyDictGet (build_doc cluster_key payload src_lines raw_refs ts_min ts_max
          model_used token_usage latency_ms) "talks"
        = some (Json.obj [("general", Json.str ""), ("entrepreneur", Json.str ""),
            ("politician", Json.str ""), ("investor", Json.str "")]))
    ∧ (∀ t, pyDictGet payload "talks" = some t →
        pyDictGet (build_doc cluster_key payload src_lines raw_refs ts_min ts_max
            model_used token_usage latency_ms) "talks" = some t) := by
  constructor
  · intro h
    show some (pyDictGetD payload "talks" _) = _
    rw [pyDictGetD, h]
    rfl
  · intro t h
    show some (pyDictGetD payload "talks" _) = _
    rw [pyDictGetD, h]
    rfl

/-- Witness for C6's amended statement: an absent `talks` key is filled
with the four empty reader entries, a present partial one is stored
unchanged. -/
theorem C6_talks_default_witness :
    pyDictGet (build_doc "ck" [] [] [] 0 0 "template" (Json.obj []) 0) "talks"
      = some (Json.obj [("general", Json.str ""), ("entrepreneur", Json.str ""),
          ("politician", Json.str ""), ("investor", Json.str "")])
    ∧ pyDictGet (build_doc "ck" [("talks", Json.obj [("general", Json.str "g")])]
        [] [] 0 0 "template" (Json.obj []) 0) "talks"
      = some (Json.obj [("general", Json.str "g")]) :=
  ⟨(C6_talks_default "ck" [] [] [] 0 0 "template" (Json.obj []) 0).1 rfl,
   (C6_talks_default "ck" [("talks", Json.obj [("general", Json.str "g")])]
      [] [] 0 0 "template" (Json.obj []) 0).2 (Json.obj [("general", Json.str "g")]) rfl⟩

/-! ## Theorems: Generation Gate under store errors -/

/-- The `created` counter of the cluster loop shifts with its
accumulator. -/
theorem run_once_foldl_shift (clusters : List (Nat × Except Unit (List Unit))) (a : Nat) :
    clusters.foldl
        (fun created c =>
          if c.1 < 1 then created
          else if already_generated c.2 then created
          else created + 1) a
      = a + clusters.foldl
          (fun created c =>
            if c.1 < 1 then created
            else if already_generated c.2 then created
            else created + 1) 0 := by
  induction clusters generalizing a with
  | nil => simp
  | cons c rest ih =>
    simp only [List.foldl]
    rw [ih, ih (if c.1 < 1 then 0 else if already_generated c.2 then 0 else 0 + 1)]
    by_cases h1 : c.1 < 1
    · simp [h1]
    · by_cases h2 : already_generated c.2
      · simp [h1, h2]
      · simp [h1, h2]
        omega

/-- Counterexample to C7: when the gate's store query fails, the error is
caught, `already_generated` returns `false`, and the batch run writes a
GeneratedArticle for that cluster instead of skipping it. -/
theorem C7_counterexample :
    already_generated (Except.error ()) = false
    ∧ run_once_model [(1, Except.error ())] = 1 :=
  ⟨rfl, rfl⟩

/-- C7 as amended: a failing store query inside `already_generated` is
caught and reported as `false`, so the cluster is treated as not yet
generated and `run_once` proceeds to write an article for it; the batch
continues, the remaining clusters contributing exactly as they would on
their own. -/
theorem C7_gate_error_generates :
    (∀ e : Unit, already_generated (Except.error e) = false)
    ∧ (∀ (n : Nat) (rest : List (Nat × Except Unit (List Unit))),
        run_once_model ((n + 1, Except.error ()) :: rest) = 1 + run_once_model rest) := by
  constructor
  · intro e
    rfl
  · intro n rest
    show List.foldl _ (if n + 1 < 1 then 0 else if already_generated (Except.error ()) then 0
      else 0 + 1) rest = _
    have h1 : ¬ n + 1 < 1 := by omega
    simp only [h1, if_false]
    show List.foldl _ 1 rest = _
    exact run_once_foldl_shift rest 1

/-! ## Theorems: Output Normalizer -/

/-- The extractor equals the strict-order, first-success composition of
its three stages. -/
theorem safe_parse_json_stages (content : String) :
    safe_parse_json content =
      (match normalize_stage1 content with
      | some v => Except.ok v
      | none =>
        match normalize_stage2 content with
        | some v => Except.ok v
        | none =>
          match normalize_stage3 content with
          | some v => Except.ok v
          | none => Except.error ()) := by
  unfold safe_parse_json normalize_stage1 normalize_stage2 normalize_stage3
  cases h1 : json_loads content with
  | some v => rfl
  | none =>
    cases h2 : json_loads (strip_fences content) with
    | some v => rfl
    | none =>
      cases h3 : brace_span content with
      | none => rfl
      | some sp =>
        cases h4 : json_loads sp with
        | some v => simp [h4]
        | none => simp [h4]

/-- C4: `safe_parse_json` tries exactly three extraction stages in order —
verbatim parse, fence-stripped parse, first-brace-to-last-brace span
parse — returns the result of the first stage that succeeds, and raises
exactly when all three fail; the three canonical inputs normalize to the
object with field `a` mapped to `1`, and the non-JSON input raises. -/
theorem C4_normalizer_strict_order :
    (∀ content : String,
      (∀ v, normalize_stage1 content = some v → safe_parse_json content = Except.ok v)
      ∧ (normalize_stage1 content = none →
          ∀ v, normalize_stage2 content = some v → safe_parse_json content = Except.ok v)
      ∧ (normalize_stage1 content = none → normalize_stage2 content = none →
          ∀ v, normalize_stage3 content = some v → safe_parse_json content = Except.ok v)
      ∧ ((∃ e, safe_parse_json content = Except.error e) ↔
          normalize_stage1 content = none ∧ normalize_stage2 content = none
            ∧ normalize_stage3 content = none))
    ∧ safe_parse_json "\x7b\"a\":1\x7d" = Except.ok (Json.obj [("a", Json.num 1)])
    ∧ safe_parse_json "```json\n\x7b\"a\":1\x7d\n```" = Except.ok (Json.obj [("a", Json.num 1)])
    ∧ safe_parse_json "noise \x7b\"a\":1\x7d noise" = Except.ok (Json.obj [("a", Json.num 1)])
    ∧ safe_parse_json "not json at all" = Except.error () := by
  refine ⟨?_, rfl, rfl, rfl, rfl⟩
  intro content
  refine ⟨?_, ?_, ?_, ?_, ?_⟩
  · intro v hv
    rw [safe_parse_json_stages, hv]
  · intro h1 v hv
    rw [safe_parse_json_stages, h1, hv]
  · intro h1 h2 v hv
    rw [safe_parse_json_stages, h1, h2, hv]
  · rintro ⟨e, he⟩
    rw [safe_parse_json_stages] at he
    cases h1 : normalize_stage1 content with
    | some v => rw [h1] at he; exact absurd he (by simp)
    | none =>
      rw [h1] at he
      cases h2 : normalize_stage2 content with
      | some v => rw [h2] at he; exact absurd he (by simp)
      | none =>
        rw [h2] at he
        cases h3 : normalize_stage3 content with
        | some v => rw [h3] at he; exact absurd he (by simp)
        | none => exact ⟨rfl, rfl, rfl⟩
  · rintro ⟨h1, h2, h3⟩
    exact ⟨(), by rw [safe_parse_json_stages, h1, h2, h3]⟩

/-- Witness for C4 at the fenced input: stage 1 fails, stage 2 succeeds,
and the extractor returns stage 2's value. -/
theorem C4_normalizer_strict_order_witness :
    safe_parse_json "```json\n\x7b\"a\":1\x7d\n```" = Except.ok (Json.obj [("a", Json.num 1)]) :=
  ((C4_normalizer_strict_order.1 "```json\n\x7b\"a\":1\x7d\n```").2.1 rfl
    (Json.obj [("a", Json.num 1)]) rfl)

/-- C10: an input that is not valid JSON verbatim, is unchanged by fence
stripping, and whose greedy first-brace-to-last-brace span is not valid
JSON makes `safe_parse_json` raise, even when a well-formed JSON object
occurs as a strict substring: for the concatenation of two objects the
span covers both objects and normalization fails. -/
theorem C10_brace_span_greedy :
    (∀ content : String,
      normalize_stage1 content = none → normalize_stage2 content = none →
      normalize_stage3 content = none →
      safe_parse_json content = Except.error ())
    ∧ brace_span "\x7b\"a\":1\x7d \x7b\"b\":2\x7d" = some "\x7b\"a\":1\x7d \x7b\"b\":2\x7d"
    ∧ json_loads "\x7b\"a\":1\x7d" = some (Json.obj [("a", Json.num 1)])
    ∧ safe_parse_json "\x7b\"a\":1\x7d \x7b\"b\":2\x7d" = Except.error () := by
  refine ⟨?_, rfl, rfl, rfl⟩
  intro content h1 h2 h3
  rw [safe_parse_json_stages, h1, h2, h3]

/-- Witness for C10 at the two-object concatenation: all three stage
hypotheses hold by evaluation and the extractor raises. -/
theorem C10_brace_span_greedy_witness :
    safe_parse_json "noise \x7b\"a\":1\x7d and \x7b\"b\":2\x7d tail" = Except.error () :=
  C10_brace_span_greedy.1 "noise \x7b\"a\":1\x7d and \x7b\"b\":2\x7d tail" rfl rfl rfl

/-! ## Theorems: Fingerprinter -/

/-- Lowercase hexadecimal digit characters. -/
def isHexDigitChar (c : Char) : Bool :=
  ('0' ≤ c && c ≤ '9') || ('a' ≤ c && c ≤ 'f')

theorem hexDigitChar_isHex : ∀ d < 16, isHexDigitChar (hexDigitChar d) = true := by decide

theorem hexRevAux_length_le : ∀ (fuel k n : Nat), n < 16 ^ k →
    (hexRevAux fuel n).length ≤ k := by
  intro fuel
  induction fuel with
  | zero => intro k n _; simp [hexRevAux]
  | succ fuel ih =>
    intro k n h
    by_cases h0 : n = 0
    · simp [hexRevAux, h0]
    · have hk : k ≠ 0 := by
        intro hk0
        subst hk0
        simp at h
        omega
      obtain ⟨k', rfl⟩ : ∃ k', k = k' + 1 := ⟨k - 1, by omega⟩
      have hdiv : n / 16 < 16 ^ k' := by
        rw [pow_succ, Nat.mul_comm] at h
        exact Nat.div_lt_of_lt_mul h
      simp only [hexRevAux, h0, if_false, List.length_cons]
      exact Nat.succ_le_succ (ih k' (n / 16) hdiv)

theorem hexRevAux_mem_isHex : ∀ (fuel n : Nat), ∀ c ∈ hexRevAux fuel n,
    isHexDigitChar c = true := by
  intro fuel
  induction fuel with
  | zero => intro n c hc; simp [hexRevAux] at hc
  | succ fuel ih =>
    intro n c hc
    by_cases h0 : n = 0
    · simp [hexRevAux, h0] at hc
    · simp only [hexRevAux, h0, if_false, List.mem_cons] at hc
      rcases hc with hc | hc
      · subst hc
        exact hexDigitChar_isHex (n % 16) (Nat.mod_lt _ (by norm_num))
      · exact ih (n / 16) c hc

theorem hexString_length_le (n : Nat) (h : n < 16 ^ 16) : (hexString n).length ≤ 16 := by
  unfold hexString hexRev
  by_cases h0 : n = 0
  · simp [h0]
  · simp only [h0, if_false, List.length_reverse]
    exact hexRevAux_length_le n 16 n h

theorem hexString_chars (n : Nat) : ∀ c ∈ hexString n, isHexDigitChar c = true := by
  unfold hexString hexRev
  by_cases h0 : n = 0
  · intro c hc
    simp [h0] at hc
    subst hc
    decide
  · intro c hc
    simp only [h0, if_false, List.mem_reverse] at hc
    exact hexRevAux_mem_isHex n n c hc

theorem hexPad_length (w n : Nat) (h : (hexString n).length ≤ w) :
    (hexPad w n).length = w := by
  unfold hexPad
  show (List.replicate (w - (hexString n).length) (Char.ofNat 48) ++ hexString n).length = w
  rw [List.length_append, List.length_replicate]
  omega

theorem hexPad_chars (w n : Nat) : ∀ c ∈ (hexPad w n).toList, isHexDigitChar c = true := by
  intro c hc
  have hc' : c ∈ List.replicate (w - (hexString n).length) (Char.ofNat 48) ++ hexString n := hc
  rcases List.mem_append.mp hc' with h1 | h2
  · have : c = Char.ofNat 48 := List.eq_of_mem_replicate h1
    subst this
    decide
  · exact hexString_chars n c h2

/-- Folding the per-token vote over a shifted accumulator. -/
theorem vote_foldl_shift (md5h : String → Nat) (i : Nat) :
    ∀ (toks : List String) (a : Int),
      toks.foldl (fun b tok => b + if (md5h tok >>> i) % 2 = 1 then 1 else -1) a
        = a + toks.foldl (fun b tok => b + if (md5h tok >>> i) % 2 = 1 then 1 else -1) 0 := by
  intro toks
  induction toks with
  | nil => intro a; simp
  | cons t ts ih =>
    intro a
    simp only [List.foldl]
    rw [ih, ih (0 + _)]
    ring

/-- The vote vector entry at a position below `bits` is the closed-form
per-bit vote. -/
theorem simhashV_getD (md5h : String → Nat) (bits : Nat) (toks : List String)
    (i : Nat) (hi : i < bits) :
    (simhashV md5h toks bits).getD i 0 = simhashVote md5h toks i := by
  unfold simhashV simhashVote
  suffices h : ∀ (toks : List String) (v : List Int), v.length = bits →
      ((toks.foldl (fun v tok => v.mapIdx (fun i vi =>
          vi + if (md5h tok >>> i) % 2 = 1 then 1 else -1)) v).getD i 0)
        = v.getD i 0
          + toks.foldl (fun b tok => b + if (md5h tok >>> i) % 2 = 1 then 1 else -1) 0 by
    rw [h toks (List.replicate bits 0) (List.length_replicate bits 0)]
    simp [List.getD_eq_getElem?_getD, List.getElem?_replicate]
    split <;> simp
  intro toks
  induction toks with
  | nil => intro v hv; simp
  | cons t ts ih =>
    intro v hv
    simp only [List.foldl]
    rw [ih (v.mapIdx _) (by rw [List.length_mapIdx]; exact hv)]
    have hi' : i < v.length := hv ▸ hi
    have hi'' : i < (v.mapIdx (fun i vi =>
        vi + if (md5h t >>> i) % 2 = 1 then 1 else -1)).length := by
      rw [List.length_mapIdx]
      exact hi'
    have hgd : (v.mapIdx (fun i vi =>
        vi + if (md5h t >>> i) % 2 = 1 then 1 else -1)).getD i 0
        = v.getD i 0 + (if (md5h t >>> i) % 2 = 1 then 1 else -1) := by
      rw [List.getD_eq_getElem _ _ hi'', List.getD_eq_getElem _ _ hi']
      exact List.get_mapIdx v _ i hi'
    rw [hgd]
    conv_rhs => rw [vote_foldl_shift md5h i ts]
    ring

/-- Test bit of the or-accumulating fold: a bit is set exactly when it
was set in the accumulator or its position is in the list and its
predicate holds. -/
theorem testBit_foldl_or (p : Nat → Prop) [DecidablePred p] :
    ∀ (l : List Nat) (acc : Nat) (j : Nat),
      (l.foldl (fun out i => if p i then out ||| (1 <<< i) else out) acc).testBit j
        = (acc.testBit j || (decide (j ∈ l) && decide (p j))) := by
  intro l
  induction l with
  | nil => intro acc j; simp
  | cons i l ih =>
    intro acc j
    simp only [List.foldl]
    rw [ih]
    by_cases hp : p i
    · rw [if_pos hp, Nat.one_shiftLeft, Nat.testBit_or, Nat.testBit_two_pow]
      by_cases hij : j = i
      · subst hij
        simp [hp]
      · have hji : ¬ i = j := fun h => hij h.symm
        simp [List.mem_cons, hij, hji]
    · rw [if_neg hp]
      by_cases hij : j = i
      · subst hij
        simp [List.mem_cons, hp]
      · simp [List.mem_cons, hij]

/-- The or-accumulating fold stays below `2 ^ b` when every position is
below `b`. -/
theorem foldl_or_lt (p : Nat → Prop) [DecidablePred p] (b : Nat) :
    ∀ (l : List Nat) (acc : Nat), acc < 2 ^ b → (∀ i ∈ l, i < b) →
      l.foldl (fun out i => if p i then out ||| (1 <<< i) else out) acc < 2 ^ b := by
  intro l
  induction l with
  | nil => intro acc hacc _; exact hacc
  | cons i l ih =>
    intro acc hacc hl
    simp only [List.foldl]
    apply ih
    · by_cases hp : p i
      · rw [if_pos hp, Nat.one_shiftLeft]
        exact Nat.or_lt_two_pow hacc
          (Nat.pow_lt_pow_right (by norm_num) (hl i (by simp)))
      · rwa [if_neg hp]
    · intro x hx
      exact hl x (by simp [hx])

theorem simhashOut_lt (md5h : String → Nat) (toks : List String) (bits : Nat) :
    simhashOut md5h toks bits < 2 ^ bits := by
  unfold simhashOut
  exact foldl_or_lt _ bits (List.range bits) 0 (Nat.two_pow_pos bits)
    (fun i hi => List.mem_range.mp hi)

theorem simhashOut_testBit (md5h : String → Nat) (toks : List String) (bits : Nat)
    (i : Nat) (hi : i < bits) :
    (simhashOut md5h toks bits).testBit i = decide (0 ≤ simhashVote md5h toks i) := by
  unfold simhashOut
  rw [testBit_foldl_or]
  have hmem : decide (i ∈ List.range bits) = true := by
    simp [List.mem_range, hi]
  rw [hmem]
  simp only [Nat.zero_testBit, Bool.false_or, Bool.true_and]
  exact congrArg (fun z : Int => decide (0 ≤ z)) (simhashV_getD md5h bits toks i hi)

/-- C8: `simhash` always yields exactly 16 lowercase hex characters;
degenerate (token-free) input yields the all-zero fingerprint; and on
tokenized input the fingerprint encodes the integer whose bit `i` is set
if and only if the accumulated per-bit vote over the token hashes is
non-negative.  The function is a total Lean function of its inputs, so it
is pure and never raises by construction. -/
theorem C8_simhash (md5h : String → Nat) (text : String) :
    (simhash md5h text).length = 16
    ∧ (∀ c ∈ (simhash md5h text).toList, isHexDigitChar c = true)
    ∧ (tokens text = [] → simhash md5h text = "0000000000000000")
    ∧ (tokens text ≠ [] →
        simhash md5h text = hexPad 16 (simhashOut md5h (tokens text) 64)
        ∧ ∀ i, i < 64 → (simhashOut md5h (tokens text) 64).testBit i
            = decide (0 ≤ simhashVote md5h (tokens text) i)) := by
  have hlt : simhashOut md5h (tokens text) 64 < 16 ^ 16 := by
    have h1 := simhashOut_lt md5h (tokens text) 64
    have h2 : (2 : Nat) ^ 64 = 16 ^ 16 := by norm_num
    omega
  refine ⟨?_, ?_, ?_, ?_⟩
  · cases htk : tokens text with
    | nil =>
      simp only [simhash, htk, List.isEmpty_nil, if_true]
      rfl
    | cons t ts =>
      simp only [simhash, htk, List.isEmpty_cons, if_false]
      exact hexPad_length 16 _ (hexString_length_le _ (htk ▸ hlt))
  · cases htk : tokens text with
    | nil =>
      simp only [simhash, htk, List.isEmpty_nil, if_true]
      decide
    | cons t ts =>
      simp only [simhash, htk, List.isEmpty_cons, if_false]
      exact hexPad_chars 16 _
  · intro h
    simp [simhash, h]
  · intro h
    have hne : (tokens text).isEmpty = false := by
      cases htk : tokens text with
      | nil => exact absurd htk h
      | cons t ts => rfl
    constructor
    · simp [simhash, hne]
    · intro i hi
      exact simhashOut_testBit md5h (tokens text) 64 i hi

/-- Witness for C8: on a concrete text with tokens the fingerprint equals
the padded hex encoding of the vote integer, the length is 16, and on
empty input the fingerprint is all zeros. -/
theorem C8_simhash_witness :
    simhash (fun _ => 37) "hello world hello"
        = hexPad 16 (simhashOut (fun _ => 37) (tokens "hello world hello") 64)
    ∧ (simhash (fun _ => 37) "hello world hello").length = 16
    ∧ simhash (fun _ => 0) "" = "0000000000000000" :=
  ⟨((C8_simhash (fun _ => 37) "hello world hello").2.2.2 (by decide)).1,
   (C8_simhash (fun _ => 37) "hello world hello").1,
   (C8_simhash (fun _ => 0) "").2.2.1 rfl⟩

/-- Every token produced by `tokenRuns` is a non-empty run of token-class
characters, provided the accumulator only holds such characters. -/
theorem tokenRuns_chars : ∀ (cs acc : List Char),
    (∀ c ∈ acc, isTokenChar c = true) →
    ∀ tok ∈ tokenRuns cs acc, tok ≠ "" ∧ ∀ c ∈ tok.toList, isTokenChar c = true := by
  intro cs
  induction cs with
  | nil =>
    intro acc hacc tok htok
    cases acc with
    | nil => simp [tokenRuns] at htok
    | cons a as =>
      simp only [tokenRuns, List.isEmpty_cons, Bool.false_eq_true, if_false,
        List.mem_singleton] at htok
      subst htok
      refine ⟨?_, ?_⟩
      · intro hcon
        have h2 : (a :: as).reverse = [] := congrArg String.data hcon
        simp at h2
      · intro c hc
        have hc' : c ∈ (a :: as).reverse := hc
        exact hacc c (List.mem_reverse.mp hc')
  | cons c0 cs ih =>
    intro acc hacc tok htok
    by_cases hc0 : isTokenChar c0 = true
    · rw [show tokenRuns (c0 :: cs) acc = tokenRuns cs (c0 :: acc) by
        simp [tokenRuns, hc0]] at htok
      refine ih (c0 :: acc) ?_ tok htok
      intro c hc
      rcases List.mem_cons.mp hc with rfl | hc
      · exact hc0
      · exact hacc c hc
    · rw [Bool.not_eq_true] at hc0
      cases acc with
      | nil =>
        rw [show tokenRuns (c0 :: cs) [] = tokenRuns cs [] by
          simp [tokenRuns, hc0]] at htok
        exact ih [] (by simp) tok htok
      | cons a as =>
        rw [show tokenRuns (c0 :: cs) (a :: as)
            = String.mk (a :: as).reverse :: tokenRuns cs [] by
          simp [tokenRuns, hc0]] at htok
        rcases List.mem_cons.mp htok with rfl | htok
        · refine ⟨?_, ?_⟩
          · intro hcon
            have h2 : (a :: as).reverse = [] := congrArg String.data hcon
            simp at h2
          · intro c hc
            have hc' : c ∈ (a :: as).reverse := hc
            exact hacc c (List.mem_reverse.mp hc')
        · exact ih [] (by simp) tok htok

/-- A character stream with no token-class characters yields no runs. -/
theorem tokenRuns_nil : ∀ (cs : List Char),
    (∀ c ∈ cs, isTokenChar c = false) → tokenRuns cs [] = [] := by
  intro cs
  induction cs with
  | nil => intro _; rfl
  | cons c0 cs ih =>
    intro h
    have hc0 : isTokenChar c0 = false := h c0 (by simp)
    rw [show tokenRuns (c0 :: cs) [] = tokenRuns cs [] by simp [tokenRuns, hc0]]
    exact ih (fun c hc => h c (by simp [hc]))

/-- Counterexample to C9: the Cyrillic text `привет` is a single
alphanumeric run, yet the tokenizer produces no token for it and the
fingerprint degenerates to all zeros — the tokenizer is not
Unicode-aware beyond Hangul. -/
theorem C9_counterexample :
    tokens "привет" = [] ∧ simhash (fun _ => 0) "привет" = "0000000000000000" :=
  ⟨rfl, rfl⟩

/-- C9 as amended: the tokenizer splits the lowered text into maximal
runs drawn from ASCII letters, ASCII digits and Hangul syllables only —
every produced token is a non-empty run of such characters, text with no
such characters (Cyrillic, Japanese, …) produces no tokens and is treated
as degenerate, while Hangul runs do tokenize. -/
theorem C9_tokenizer_class :
    (∀ text : String, ∀ tok ∈ tokens text,
      tok ≠ "" ∧ ∀ c ∈ tok.toList, isTokenChar c = true)
    ∧ (∀ text : String,
        (∀ c ∈ (strLower text).toList, isTokenChar c = false) → tokens text = [])
    ∧ tokens "안녕 세계" = ["안녕", "세계"] := by
  refine ⟨?_, ?_, rfl⟩
  · intro text tok htok
    exact tokenRuns_chars (strLower text).toList [] (by simp) tok htok
  · intro text h
    exact tokenRuns_nil (strLower text).toList h

/-- Witness for C9's amended statement: a Hangul token is a non-empty
token-class run, and Japanese text tokenizes to nothing. -/
theorem C9_tokenizer_class_witness :
    ("안녕" ≠ "" ∧ ∀ c ∈ "안녕".toList, isTokenChar c = true)
    ∧ tokens "こんにちは" = [] :=
  ⟨C9_tokenizer_class.1 "안녕 세계" "안녕" (by decide),
   C9_tokenizer_class.2.1 "こんにちは" (by decide)⟩

end ITriggr
